import Mathlib

/-
  Shallow embedding of the combat core of the dnd-app repository:
  the rules engine (dice and HP arithmetic), the combat manager
  (turn scheduling, attack orchestration, HP mutation) and the enemy
  policy.  JavaScript objects become structures; the mutable
  CombatState of the CombatManager class becomes explicit state
  passing (each mutating method is a function CombatState -> CombatState
  or CombatState -> CombatState x Result); the implicit Math.random
  source becomes explicit draw arguments, as the specification requires
  an injectable random source.  JS numbers holding integers become Int;
  the two fractional comparisons (maxHP / 2 and hp ratios) use exact
  rationals, which agree with IEEE doubles on all integer-valued inputs
  exercised here.
-/

namespace DndApp

-- ===========================================================================
-- Data model (combat-manager.ts, types)
-- ===========================================================================

structure HitPoints where
  current : Int
  max : Int
deriving Repr, DecidableEq

structure Combatant where
  id : String
  name : String
  initiative : Int
  hp : HitPoints
  ac : Int
  isPlayer : Bool
  isDefeated : Bool
deriving Repr, DecidableEq

structure CombatState where
  round : Nat
  turnIndex : Nat
  combatants : List Combatant
  combatLog : List String
  isActive : Bool
deriving Repr, DecidableEq

-- ===========================================================================
-- Rules engine (rules-engine.ts) — pure dice and HP arithmetic.
-- Every Math.floor(Math.random() * sides) + 1 draw is passed in explicitly;
-- a draw stands for one value of the random source, in [1, sides].
-- ===========================================================================

namespace RulesEngine

structure RollResult where
  d20 : Int
  modifiers : List Int
  total : Int
  criticalHit : Bool
  criticalMiss : Bool
deriving Repr, DecidableEq

/-- rollD20: total = draw + sum of modifiers; crit flags compare the raw d20. -/
def rollD20 (draw : Int) (modifiers : List Int) : RollResult :=
  let modifierSum := modifiers.sum
  { d20 := draw
    modifiers := modifiers
    total := draw + modifierSum
    criticalHit := draw == 20
    criticalMiss := draw == 1 }

/-- rollDice(count, sides, modifier): total starts at modifier and adds
    count draws from the random source (the first count entries of draws). -/
def rollDice (count : Nat) (sides : Int) (modifier : Int) (draws : List Int) : Int :=
  let _ := sides
  modifier + (draws.take count).sum

structure RulesResolution where
  success : Bool
  roll : RollResult
  dc : Int
deriving Repr, DecidableEq

/-- resolveAttack: one d20 with the attack bonus (and extra modifiers);
    success iff total >= target AC (ties hit). -/
def resolveAttack (attackBonus : Int) (targetAC : Int)
    (additionalModifiers : List Int) (draw : Int) : RulesResolution :=
  let roll := rollD20 draw (attackBonus :: additionalModifiers)
  { success := decide (targetAC ≤ roll.total), roll := roll, dc := targetAC }

/-- resolveDamage: diceCount d diceSides + modifier; on a critical the dice
    (with modifier 0, i.e. not the flat bonus) are rolled a second time and
    added; the result is floored at 0.  draws1 feeds the first roll,
    draws2 the critical re-roll. -/
def resolveDamage (diceCount : Nat) (diceSides : Int) (damageModifier : Int)
    (isCritical : Bool) (draws1 draws2 : List Int) : Int :=
  let damage := rollDice diceCount diceSides damageModifier draws1
  let damageTotal :=
    if isCritical then damage + rollDice diceCount diceSides 0 draws2 else damage
  max 0 damageTotal

inductive HPStatus where
  | healthy
  | wounded
  | disabled
  | dying
  | dead
deriving Repr, DecidableEq

structure StatusChange where
  target : String
  condName : String
deriving Repr, DecidableEq

structure DamageOutcome where
  newHP : Int
  status : HPStatus
  statusChanges : List StatusChange
deriving Repr, DecidableEq

/-- applyDamage(currentHP, maxHP, damage): newHP = max(-10, currentHP - damage);
    status chain in source order: dead / dying / disabled / wounded / healthy.
    The source compares newHP < maxHP / 2 with JS real division, rendered here
    over the rationals. -/
def applyDamage (currentHP maxHP damage : Int) : DamageOutcome :=
  let newHP := max (-10) (currentHP - damage)
  if newHP ≤ -10 then
    { newHP := newHP, status := HPStatus.dead
      statusChanges := [{ target := "self", condName := "Dead" }] }
  else if newHP < 0 then
    { newHP := newHP, status := HPStatus.dying
      statusChanges := [{ target := "self", condName := "Dying" }] }
  else if newHP = 0 then
    { newHP := newHP, status := HPStatus.disabled
      statusChanges := [{ target := "self", condName := "Disabled" }] }
  else if (newHP : ℚ) < (maxHP : ℚ) / 2 then
    { newHP := newHP, status := HPStatus.wounded, statusChanges := [] }
  else
    { newHP := newHP, status := HPStatus.healthy, statusChanges := [] }

structure HealOutcome where
  newHP : Int
  overheal : Int
deriving Repr, DecidableEq

/-- applyHealing(currentHP, maxHP, healing): clamp at maxHP, report overheal. -/
def applyHealing (currentHP maxHP healing : Int) : HealOutcome :=
  { newHP := min maxHP (currentHP + healing)
    overheal := max 0 (currentHP + healing - maxHP) }

end RulesEngine

-- ===========================================================================
-- Combat manager (combat-manager.ts) — state machine, explicit state passing
-- ===========================================================================

namespace CombatManager

/-- The JS comparator (a, b) => b.initiative - a.initiative orders a before b
    when b.initiative <= a.initiative; Array.prototype.sort is stable. -/
def initiativeLE (a b : Combatant) : Bool :=
  decide (b.initiative ≤ a.initiative)

/-- this.state.combatLog.push(entry) -/
def addToLog (s : CombatState) (entry : String) : CombatState :=
  { s with combatLog := s.combatLog ++ [entry] }

/-- The fixed first log entry of startCombat. -/
def combatBeginsEntry : String := "⚔️  COMBAT BEGINS!"

/-- The separator of the initiative-order summary. -/
def initiativeSep : String := " → "

/-- The second log entry of startCombat: the names in initiative order. -/
def initiativeOrderEntry (combatants : List Combatant) : String :=
  "Initiative order: " ++
    String.intercalate initiativeSep (combatants.map (fun c => c.name))

/-- startCombat: stable descending sort on initiative, round 1, turn 0,
    active, log seeded with the combat-begins entry then the order summary. -/
def startCombat (combatants : List Combatant) : CombatState :=
  let sortedCombatants := combatants.mergeSort initiativeLE
  { round := 1
    turnIndex := 0
    combatants := sortedCombatants
    combatLog := [combatBeginsEntry, initiativeOrderEntry sortedCombatants]
    isActive := true }

/-- getCurrentCombatant: null when inactive or empty, else the combatant at
    turnIndex (out-of-range indexing yields undefined, rendered as none). -/
def getCurrentCombatant (s : CombatState) : Option Combatant :=
  if !s.isActive || s.combatants.length == 0 then none
  else s.combatants[s.turnIndex]?

/-- getActiveCombatants: all with isDefeated = false. -/
def getActiveCombatants (s : CombatState) : List Combatant :=
  s.combatants.filter (fun c => !c.isDefeated)

/-- getCombatant(id): Array.prototype.find — the first combatant with the id. -/
def getCombatant (s : CombatState) (id : String) : Option Combatant :=
  s.combatants.find? (fun c => c.id == id)

/-- Method form of getCurrentCombatant: the body performs no assignment to
    this.state, so its state-passing rendering returns the state as is. -/
def getCurrentCombatantM (s : CombatState) : CombatState × Option Combatant :=
  (s, getCurrentCombatant s)

/-- Method form of getActiveCombatants (no assignment to this.state). -/
def getActiveCombatantsM (s : CombatState) : CombatState × List Combatant :=
  (s, getActiveCombatants s)

/-- In-place mutation of the object returned by find: rewrite the first
    combatant carrying the id, leave everything else untouched. -/
def updateFirst (l : List Combatant) (targetId : String)
    (f : Combatant → Combatant) : List Combatant :=
  match l with
  | [] => []
  | c :: cs => if c.id == targetId then f c :: cs else c :: updateFirst cs targetId f

structure DamageRollSpec where
  dice : Nat
  sides : Int
  bonus : Int
deriving Repr, DecidableEq

/-- The in-place HP mutation both attack paths perform on the target:
    target.hp.current = Math.max(0, target.hp.current - damage), then
    target.isDefeated = true iff the new HP is 0 (otherwise kept). -/
def damagedTarget (target : Combatant) (damage : Int) : Combatant :=
  { target with
    hp := { target.hp with current := max 0 (target.hp.current - damage) }
    isDefeated :=
      if max 0 (target.hp.current - damage) = 0 then true else target.isDefeated }

/-- The in-place HP mutation of applyHealing:
    target.hp.current = Math.min(target.hp.max, target.hp.current + healing). -/
def healedTarget (target : Combatant) (healing : Int) : Combatant :=
  { target with hp := { target.hp with current := min target.hp.max (target.hp.current + healing) } }

structure AttackOutcome where
  success : Bool
  damage : Option Int
deriving Repr, DecidableEq

/-- processAttack(actorId, targetId, attackBonus, damageRoll): look both up,
    fail on a missing id or an already defeated target; resolve the attack
    (one injected d20 draw), on a hit resolve damage (injected draws), clamp
    the target's HP at 0, set isDefeated when HP reaches 0, and append the
    log entries.  The LLM narrative call touches no combat state and is
    dropped; the method never consults isActive. -/
def processAttack (s : CombatState) (actorId targetId : String)
    (attackBonus : Int) (damageRoll : DamageRollSpec)
    (attackDraw : Int) (damageDraws : List Int) : CombatState × AttackOutcome :=
  match getCombatant s actorId, getCombatant s targetId with
  | none, _ => (s, { success := false, damage := none })
  | some _, none => (s, { success := false, damage := none })
  | some actor, some target =>
    if target.isDefeated then
      (s, { success := false, damage := none })
    else
      let attackResult := RulesEngine.resolveAttack attackBonus target.ac [] attackDraw
      if attackResult.success then
        let damage := RulesEngine.resolveDamage damageRoll.dice damageRoll.sides
          damageRoll.bonus false damageDraws []
        let newTarget := damagedTarget target damage
        let s1 := { s with combatants := updateFirst s.combatants targetId (fun _ => newTarget) }
        let hitEntry := actor.name ++ " attacks " ++ newTarget.name ++ ": HIT for " ++
          toString damage ++ " damage! (" ++ toString newTarget.hp.current ++ "/" ++
          toString newTarget.hp.max ++ " HP remaining)"
        let s2 := addToLog s1 hitEntry
        let defeatEntry := "💀 " ++ newTarget.name ++ " has been defeated!"
        let s3 := if newTarget.isDefeated then addToLog s2 defeatEntry else s2
        (s3, { success := true, damage := some damage })
      else
        let missEntry := actor.name ++ " attacks " ++ target.name ++ ": MISS!"
        (addToLog s missEntry, { success := false, damage := none })

/-- applyDamage(targetId, damage, source): no-op on a missing or defeated
    target; clamp HP at 0; mark defeat (with its log entry) before the
    damage log entry. -/
def applyDamage (s : CombatState) (targetId : String) (damage : Int)
    (source : String) : CombatState :=
  match getCombatant s targetId with
  | none => s
  | some target =>
    if target.isDefeated then s
    else
      let newTarget := damagedTarget target damage
      let s1 := { s with combatants := updateFirst s.combatants targetId (fun _ => newTarget) }
      let defeatEntry := "💀 " ++ newTarget.name ++ " has been defeated!"
      let s2 := if newTarget.hp.current = 0 then addToLog s1 defeatEntry else s1
      let damageEntry := newTarget.name ++ " takes " ++ toString damage ++
        " damage from " ++ source ++ " (" ++ toString newTarget.hp.current ++ "/" ++
        toString newTarget.hp.max ++ " HP)"
      addToLog s2 damageEntry

/-- applyHealing(targetId, healing, source): no-op on a missing or defeated
    target; clamp HP at hp.max; log the actual healing. -/
def applyHealing (s : CombatState) (targetId : String) (healing : Int)
    (source : String) : CombatState :=
  match getCombatant s targetId with
  | none => s
  | some target =>
    if target.isDefeated then s
    else
      let oldHP := target.hp.current
      let newTarget := healedTarget target healing
      let actualHealing := newTarget.hp.current - oldHP
      let s1 := { s with combatants := updateFirst s.combatants targetId (fun _ => newTarget) }
      let healEntry := newTarget.name ++ " healed " ++ toString actualHealing ++
        " HP from " ++ source ++ " (" ++ toString newTarget.hp.current ++ "/" ++
        toString newTarget.hp.max ++ " HP)"
      addToLog s1 healEntry

structure TurnOutcome where
  newRound : Bool
  currentCombatant : Option Combatant
deriving Repr, DecidableEq

/-- this.state.turnIndex = (this.state.turnIndex + 1) % this.state.combatants.length -/
def advanceIndex (s : CombatState) : CombatState :=
  { s with turnIndex := (s.turnIndex + 1) % s.combatants.length }

/-- The log line announcing a new round. -/
def roundEntry (r : Nat) : String :=
  "\n=== ROUND " ++ toString r ++ " ==="

/-- The wrap-to-0 effect of nextTurn: this.state.round++ plus its log line. -/
def wrapRound (s1 : CombatState) : CombatState :=
  addToLog { s1 with round := s1.round + 1 } (roundEntry (s1.round + 1))

/-- The do-while body of nextTurn: advance turnIndex mod N; on wrap to 0
    increment the round, log it and return newRound immediately (whatever sits
    at index 0); otherwise return the combatant when live, else loop while
    attempts remain.  fuel counts the loop iterations still allowed after the
    present one (the do-while runs its body at least once and at most
    maxAttempts = N times, so nextTurn seeds fuel with N - 1). -/
def nextTurnGo (fuel : Nat) (s : CombatState) : CombatState × TurnOutcome :=
  if (advanceIndex s).turnIndex = 0 then
    (wrapRound (advanceIndex s),
     { newRound := true
       currentCombatant := getCurrentCombatant (wrapRound (advanceIndex s)) })
  else
    match getCurrentCombatant (advanceIndex s) with
    | some current =>
      if !current.isDefeated then
        (advanceIndex s, { newRound := false, currentCombatant := some current })
      else
        match fuel with
        | 0 => (advanceIndex s, { newRound := false, currentCombatant := none })
        | fuel' + 1 => nextTurnGo fuel' (advanceIndex s)
    | none =>
      match fuel with
      | 0 => (advanceIndex s, { newRound := false, currentCombatant := none })
      | fuel' + 1 => nextTurnGo fuel' (advanceIndex s)

/-- nextTurn: immediate null result when inactive, else the bounded scan. -/
def nextTurn (s : CombatState) : CombatState × TurnOutcome :=
  if !s.isActive then (s, { newRound := false, currentCombatant := none })
  else nextTurnGo (s.combatants.length - 1) s

inductive Winners where
  | players
  | enemies
deriving Repr, DecidableEq

structure CombatEndOutcome where
  ended : Bool
  winners : Option Winners
  reason : Option String
deriving Repr, DecidableEq

/-- checkCombatEnd: when one side has no live member, set isActive false,
    append the outcome log entry and report the winners; otherwise report
    ended = false and leave the state untouched. -/
def checkCombatEnd (s : CombatState) : CombatState × CombatEndOutcome :=
  let activePlayers := s.combatants.filter (fun c => c.isPlayer && !c.isDefeated)
  let activeEnemies := s.combatants.filter (fun c => !c.isPlayer && !c.isDefeated)
  if activePlayers.length = 0 then
    let defeatMsg := "\n💀 All players defeated! DEFEAT!"
    let defeatReason := "All players defeated"
    (addToLog { s with isActive := false } defeatMsg,
      { ended := true, winners := some Winners.enemies, reason := some defeatReason })
  else if activeEnemies.length = 0 then
    let victoryMsg := "\n🎉 All enemies defeated! VICTORY!"
    let victoryReason := "All enemies defeated"
    (addToLog { s with isActive := false } victoryMsg,
      { ended := true, winners := some Winners.players, reason := some victoryReason })
  else
    (s, { ended := false, winners := none, reason := none })

/-- endCombat: unconditional manual stop. -/
def endCombat (s : CombatState) : CombatState :=
  let endEntry := "\n⚔️  COMBAT ENDED"
  addToLog { s with isActive := false } endEntry

end CombatManager

-- ===========================================================================
-- Enemy policy (enemy-ai.ts)
-- ===========================================================================

namespace EnemyAI

inductive AIAction where
  | attack
  | defend
  | pass
deriving Repr, DecidableEq

structure AIDecision where
  action : AIAction
  targetId : Option String
  reasoning : String
deriving Repr, DecidableEq

/-- hp.current / hp.max, the JS real division rendered over the rationals. -/
def hpPercent (c : Combatant) : ℚ :=
  (c.hp.current : ℚ) / (c.hp.max : ℚ)

/-- The reasoning string of the pass decision. -/
def noValidTargetsMsg : String := "No valid targets"

/-- The reduce callback: keep the accumulator unless the candidate has a
    strictly lower HP ratio, so the first minimum encountered wins ties. -/
def weakerTarget (weakest current : Combatant) : Combatant :=
  if hpPercent current < hpPercent weakest then current else weakest

/-- decideAction(enemy, allCombatants): pass without live player targets;
    defend when the enemy is below a quarter HP and the injected uniform
    draw falls under 0.3; otherwise attack the live player with the lowest
    HP ratio (reduce with no seed = fold from the first element). -/
def decideAction (enemy : Combatant) (allCombatants : List Combatant)
    (randDraw : ℚ) : AIDecision :=
  match allCombatants.filter (fun c => c.isPlayer && !c.isDefeated) with
  | [] => { action := AIAction.pass, targetId := none, reasoning := noValidTargetsMsg }
  | first :: rest =>
    if hpPercent enemy < 1 / 4 ∧ randDraw < 3 / 10 then
      { action := AIAction.defend
        targetId := none
        reasoning := enemy.name ++ " is low on HP and takes defensive stance" }
    else
      { action := AIAction.attack
        targetId := some (rest.foldl weakerTarget first).id
        reasoning := enemy.name ++ " attacks " ++ (rest.foldl weakerTarget first).name
          ++ " (weakest target)" }

end EnemyAI

-- ===========================================================================
-- Derived predicates and concrete states used by the verification
-- ===========================================================================

/-- Every combatant of the state satisfies 0 <= hp.current <= hp.max. -/
def hpWithinBounds (s : CombatState) : Prop :=
  ∀ c ∈ s.combatants, 0 ≤ c.hp.current ∧ c.hp.current ≤ c.hp.max

instance (s : CombatState) : Decidable (hpWithinBounds s) := by
  unfold hpWithinBounds
  infer_instance

-- Concrete inputs used to instantiate the theorems below (one family per
-- claim, so each stands alone).

/-- C1 counterexample state: the defeated combatant sits at initiative slot 0
    and the turn pointer is on the last slot, about to wrap. -/
def stateC1 : CombatState :=
  { round := 1
    turnIndex := 1
    combatants :=
      [{ id := "a", name := "A", initiative := 10, hp := { current := 0, max := 10 }
         ac := 10, isPlayer := true, isDefeated := true },
       { id := "b", name := "B", initiative := 5, hp := { current := 7, max := 10 }
         ac := 12, isPlayer := false, isDefeated := false }]
    combatLog := []
    isActive := true }

/-- C1 witness state: two live combatants, pointer on slot 0. -/
def stateC1w : CombatState :=
  { round := 1
    turnIndex := 0
    combatants :=
      [{ id := "a", name := "A", initiative := 10, hp := { current := 9, max := 10 }
         ac := 10, isPlayer := true, isDefeated := false },
       { id := "b", name := "B", initiative := 5, hp := { current := 7, max := 10 }
         ac := 12, isPlayer := false, isDefeated := false }]
    combatLog := []
    isActive := true }

/-- The combatant stateC1w's nextTurn hands the turn to. -/
def combatantC1w : Combatant :=
  { id := "b", name := "B", initiative := 5, hp := { current := 7, max := 10 }
    ac := 12, isPlayer := false, isDefeated := false }

/-- C8 witness state: active, two live combatants, pointer on slot 0. -/
def stateC8 : CombatState :=
  { round := 3
    turnIndex := 0
    combatants :=
      [{ id := "p", name := "P", initiative := 12, hp := { current := 9, max := 12 }
         ac := 14, isPlayer := true, isDefeated := false },
       { id := "e", name := "E", initiative := 4, hp := { current := 6, max := 6 }
         ac := 11, isPlayer := false, isDefeated := false }]
    combatLog := []
    isActive := true }

/-- C2 counterexample state: combat already inactive, both combatants alive. -/
def stateC2 : CombatState :=
  { round := 2
    turnIndex := 0
    combatants :=
      [{ id := "a", name := "A", initiative := 10, hp := { current := 10, max := 10 }
         ac := 10, isPlayer := true, isDefeated := false },
       { id := "t", name := "T", initiative := 5, hp := { current := 6, max := 10 }
         ac := 12, isPlayer := false, isDefeated := false }]
    combatLog := []
    isActive := false }

/-- C2 witness state: inactive, with a defeated target. -/
def stateC2w : CombatState :=
  { round := 2
    turnIndex := 0
    combatants :=
      [{ id := "x", name := "X", initiative := 10, hp := { current := 10, max := 10 }
         ac := 10, isPlayer := true, isDefeated := false },
       { id := "t", name := "T", initiative := 5, hp := { current := 0, max := 10 }
         ac := 12, isPlayer := false, isDefeated := true }]
    combatLog := []
    isActive := false }

/-- The defeated target inside stateC2w. -/
def combatantC2w : Combatant :=
  { id := "t", name := "T", initiative := 5, hp := { current := 0, max := 10 }
    ac := 12, isPlayer := false, isDefeated := true }

/-- C3 counterexample state: active, but every player is defeated. -/
def stateC3 : CombatState :=
  { round := 4
    turnIndex := 0
    combatants :=
      [{ id := "p", name := "P", initiative := 10, hp := { current := 0, max := 10 }
         ac := 10, isPlayer := true, isDefeated := true },
       { id := "e", name := "E", initiative := 5, hp := { current := 6, max := 10 }
         ac := 12, isPlayer := false, isDefeated := false }]
    combatLog := []
    isActive := true }

/-- C3 witness state: a live player and a live enemy. -/
def stateC3w : CombatState :=
  { round := 4
    turnIndex := 0
    combatants :=
      [{ id := "p", name := "P", initiative := 10, hp := { current := 8, max := 10 }
         ac := 10, isPlayer := true, isDefeated := false },
       { id := "e", name := "E", initiative := 5, hp := { current := 6, max := 10 }
         ac := 12, isPlayer := false, isDefeated := false }]
    combatLog := []
    isActive := true }

/-- C9 witness state: a defeated combatant on slot 0 next to a live one. -/
def stateC9 : CombatState :=
  { round := 2
    turnIndex := 1
    combatants :=
      [{ id := "d", name := "D", initiative := 9, hp := { current := 0, max := 8 }
         ac := 13, isPlayer := false, isDefeated := true },
       { id := "l", name := "L", initiative := 3, hp := { current := 5, max := 8 }
         ac := 13, isPlayer := true, isDefeated := false }]
    combatLog := []
    isActive := true }

/-- The defeated combatant of stateC9. -/
def combatantC9 : Combatant :=
  { id := "d", name := "D", initiative := 9, hp := { current := 0, max := 8 }
    ac := 13, isPlayer := false, isDefeated := true }

/-- C4 witness roster: two combatants with equal initiative around a faster
    one. -/
def combatantC4a : Combatant :=
  { id := "x", name := "X", initiative := 5, hp := { current := 10, max := 10 }
    ac := 10, isPlayer := true, isDefeated := false }

/-- The later of C4's equal-initiative pair. -/
def combatantC4b : Combatant :=
  { id := "z", name := "Z", initiative := 5, hp := { current := 4, max := 12 }
    ac := 15, isPlayer := false, isDefeated := false }

/-- The C4 witness roster. -/
def rosterC4 : List Combatant :=
  [combatantC4a,
   { id := "y", name := "Y", initiative := 9, hp := { current := 6, max := 6 }
     ac := 12, isPlayer := false, isDefeated := false },
   combatantC4b]

/-- C7 witness enemy: full HP. -/
def enemyC7 : Combatant :=
  { id := "g", name := "G", initiative := 1, hp := { current := 10, max := 10 }
    ac := 13, isPlayer := false, isDefeated := false }

/-- C7 witness player at 50% HP. -/
def playerC7a : Combatant :=
  { id := "p1", name := "P1", initiative := 6, hp := { current := 5, max := 10 }
    ac := 14, isPlayer := true, isDefeated := false }

/-- C7 witness player at 30% HP. -/
def playerC7b : Combatant :=
  { id := "p2", name := "P2", initiative := 4, hp := { current := 3, max := 10 }
    ac := 12, isPlayer := true, isDefeated := false }

/-- The C7 witness roster. -/
def rosterC7 : List Combatant := [enemyC7, playerC7a, playerC7b]

/-- C10 counterexample state: a single live combatant at 3/10 HP. -/
def stateC10 : CombatState :=
  { round := 1
    turnIndex := 0
    combatants :=
      [{ id := "t", name := "T", initiative := 2, hp := { current := 3, max := 10 }
         ac := 11, isPlayer := true, isDefeated := false }]
    combatLog := []
    isActive := true }

-- ===========================================================================
-- Theorems
-- ===========================================================================

/-- Comparison against half of an integer, moved from ℚ to ℤ. -/
theorem rat_lt_half_iff (n m : Int) : ((n : ℚ) < (m : ℚ) / 2) ↔ 2 * n < m := by
  rw [lt_div_iff₀ (by norm_num : (0 : ℚ) < 2), mul_comm]
  exact_mod_cast Iff.rfl

/-- Comparison against half of an integer, moved from ℚ to ℤ. -/
theorem rat_half_le_iff (n m : Int) : ((m : ℚ) / 2 ≤ (n : ℚ)) ↔ m ≤ 2 * n := by
  rw [div_le_iff₀ (by norm_num : (0 : ℚ) < 2), mul_comm]
  exact_mod_cast Iff.rfl

/-- The newHP field of applyDamage is always max(-10, currentHP - damage). -/
theorem applyDamage_newHP (currentHP maxHP damage : Int) :
    (RulesEngine.applyDamage currentHP maxHP damage).newHP
      = max (-10) (currentHP - damage) := by
  simp only [RulesEngine.applyDamage]
  split_ifs <;> rfl

/-- C5: applyDamage clamps at -10, classifies the status by the source's
    priority chain (dead, dying, disabled, wounded below half max, else
    healthy), is monotonic non-increasing in the damage argument, and meets
    the two boundary cases applyDamage(0,10,0) = disabled and
    applyDamage(-9,10,1) = (-10, dead). -/
theorem applyDamage_spec (currentHP maxHP : Int) (hmax : 0 < maxHP) (damage : Int) :
    (RulesEngine.applyDamage currentHP maxHP damage).newHP
        = max (-10) (currentHP - damage)
    ∧ ((RulesEngine.applyDamage currentHP maxHP damage).status = RulesEngine.HPStatus.dead
        ↔ (RulesEngine.applyDamage currentHP maxHP damage).newHP ≤ -10)
    ∧ ((RulesEngine.applyDamage currentHP maxHP damage).status = RulesEngine.HPStatus.dying
        ↔ -10 < (RulesEngine.applyDamage currentHP maxHP damage).newHP
          ∧ (RulesEngine.applyDamage currentHP maxHP damage).newHP < 0)
    ∧ ((RulesEngine.applyDamage currentHP maxHP damage).status = RulesEngine.HPStatus.disabled
        ↔ (RulesEngine.applyDamage currentHP maxHP damage).newHP = 0)
    ∧ ((RulesEngine.applyDamage currentHP maxHP damage).status = RulesEngine.HPStatus.wounded
        ↔ 0 < (RulesEngine.applyDamage currentHP maxHP damage).newHP
          ∧ ((RulesEngine.applyDamage currentHP maxHP damage).newHP : ℚ) < (maxHP : ℚ) / 2)
    ∧ ((RulesEngine.applyDamage currentHP maxHP damage).status = RulesEngine.HPStatus.healthy
        ↔ 0 < (RulesEngine.applyDamage currentHP maxHP damage).newHP
          ∧ (maxHP : ℚ) / 2 ≤ ((RulesEngine.applyDamage currentHP maxHP damage).newHP : ℚ))
    ∧ (∀ d1 d2 : Int, d1 ≤ d2 →
        (RulesEngine.applyDamage currentHP maxHP d2).newHP
          ≤ (RulesEngine.applyDamage currentHP maxHP d1).newHP)
    ∧ (RulesEngine.applyDamage 0 10 0).status = RulesEngine.HPStatus.disabled
    ∧ (RulesEngine.applyDamage (-9) 10 1).newHP = -10
    ∧ (RulesEngine.applyDamage (-9) 10 1).status = RulesEngine.HPStatus.dead := by
  refine ⟨applyDamage_newHP .., ?_, ?_, ?_, ?_, ?_, ?_, by decide, by decide, by decide⟩
  · simp only [applyDamage_newHP, RulesEngine.applyDamage, rat_lt_half_iff]
    split_ifs <;> simp_all <;> omega
  · simp only [applyDamage_newHP, RulesEngine.applyDamage, rat_lt_half_iff]
    split_ifs <;> simp_all <;> omega
  · simp only [applyDamage_newHP, RulesEngine.applyDamage, rat_lt_half_iff]
    split_ifs <;> simp_all <;> omega
  · simp only [applyDamage_newHP, RulesEngine.applyDamage, rat_lt_half_iff]
    split_ifs <;> simp_all <;> omega
  · simp only [applyDamage_newHP, RulesEngine.applyDamage, rat_lt_half_iff, rat_half_le_iff]
    split_ifs <;> simp_all <;> omega
  · intro d1 d2 hle
    rw [applyDamage_newHP, applyDamage_newHP]
    omega

/-- C5 witness: the spec at a concrete positive maxHP. -/
theorem applyDamage_spec_witness :
    (RulesEngine.applyDamage 7 10 3).newHP = max (-10) (7 - 3)
    ∧ ((RulesEngine.applyDamage 7 10 3).status = RulesEngine.HPStatus.dead
        ↔ (RulesEngine.applyDamage 7 10 3).newHP ≤ -10)
    ∧ ((RulesEngine.applyDamage 7 10 3).status = RulesEngine.HPStatus.dying
        ↔ -10 < (RulesEngine.applyDamage 7 10 3).newHP
          ∧ (RulesEngine.applyDamage 7 10 3).newHP < 0)
    ∧ ((RulesEngine.applyDamage 7 10 3).status = RulesEngine.HPStatus.disabled
        ↔ (RulesEngine.applyDamage 7 10 3).newHP = 0)
    ∧ ((RulesEngine.applyDamage 7 10 3).status = RulesEngine.HPStatus.wounded
        ↔ 0 < (RulesEngine.applyDamage 7 10 3).newHP
          ∧ ((RulesEngine.applyDamage 7 10 3).newHP : ℚ) < (10 : ℚ) / 2)
    ∧ ((RulesEngine.applyDamage 7 10 3).status = RulesEngine.HPStatus.healthy
        ↔ 0 < (RulesEngine.applyDamage 7 10 3).newHP
          ∧ (10 : ℚ) / 2 ≤ ((RulesEngine.applyDamage 7 10 3).newHP : ℚ))
    ∧ (∀ d1 d2 : Int, d1 ≤ d2 →
        (RulesEngine.applyDamage 7 10 d2).newHP ≤ (RulesEngine.applyDamage 7 10 d1).newHP)
    ∧ (RulesEngine.applyDamage 0 10 0).status = RulesEngine.HPStatus.disabled
    ∧ (RulesEngine.applyDamage (-9) 10 1).newHP = -10
    ∧ (RulesEngine.applyDamage (-9) 10 1).status = RulesEngine.HPStatus.dead :=
  applyDamage_spec 7 10 (by decide) 3

/-- C6: resolveDamage sums the first diceCount draws plus the flat bonus,
    adds the second roll of the dice alone on a critical (the bonus is not
    doubled), floors the result at 0, and yields 19 on 1d8+3 critical with
    both draws forced to 8. -/
theorem resolveDamage_spec (diceCount : Nat) (diceSides damageModifier : Int)
    (draws1 draws2 : List Int) :
    RulesEngine.resolveDamage diceCount diceSides damageModifier true draws1 draws2
      = max 0 ((draws1.take diceCount).sum + damageModifier + (draws2.take diceCount).sum)
    ∧ RulesEngine.resolveDamage diceCount diceSides damageModifier false draws1 draws2
      = max 0 ((draws1.take diceCount).sum + damageModifier)
    ∧ RulesEngine.resolveDamage 1 8 3 true [8] [8] = 19 := by
  refine ⟨?_, ?_, by decide⟩
  · simp only [RulesEngine.resolveDamage, RulesEngine.rollDice, if_true]
    congr 1
    ring
  · simp only [RulesEngine.resolveDamage, RulesEngine.rollDice, Bool.false_eq_true,
      if_false]
    congr 1
    ring

/-- The descending-initiative comparison is transitive. -/
theorem initiativeLE_trans (a b c : Combatant) :
    CombatManager.initiativeLE a b = true → CombatManager.initiativeLE b c = true →
    CombatManager.initiativeLE a c = true := by
  simp only [CombatManager.initiativeLE, decide_eq_true_eq]
  omega

/-- The descending-initiative comparison is total. -/
theorem initiativeLE_total (a b : Combatant) :
    (CombatManager.initiativeLE a b || CombatManager.initiativeLE b a) = true := by
  simp only [CombatManager.initiativeLE, Bool.or_eq_true, decide_eq_true_eq]
  omega

/-- C4: startCombat permutes the roster into descending initiative order,
    keeps the relative input order of equal-initiative combatants (stable
    sort), sets round 1, turn index 0 and active, and seeds the log with the
    combat-begins entry followed by the initiative-order summary. -/
theorem startCombat_spec (roster : List Combatant) :
    (CombatManager.startCombat roster).round = 1
    ∧ (CombatManager.startCombat roster).turnIndex = 0
    ∧ (CombatManager.startCombat roster).isActive = true
    ∧ (CombatManager.startCombat roster).combatants.Perm roster
    ∧ List.Pairwise (fun a b => b.initiative ≤ a.initiative)
        (CombatManager.startCombat roster).combatants
    ∧ (∀ a b : Combatant, a.initiative = b.initiative →
        List.Sublist [a, b] roster →
        List.Sublist [a, b] (CombatManager.startCombat roster).combatants)
    ∧ (CombatManager.startCombat roster).combatLog =
        [CombatManager.combatBeginsEntry,
         CombatManager.initiativeOrderEntry (CombatManager.startCombat roster).combatants] := by
  refine ⟨rfl, rfl, rfl, ?_, ?_, ?_, rfl⟩
  · exact List.mergeSort_perm roster CombatManager.initiativeLE
  · have h := @List.sorted_mergeSort Combatant CombatManager.initiativeLE
      initiativeLE_trans initiativeLE_total roster
    exact h.imp (fun hab => by
      simpa only [CombatManager.initiativeLE, decide_eq_true_eq] using hab)
  · intro a b hinit hsub
    refine List.sublist_mergeSort initiativeLE_trans initiativeLE_total ?_ hsub
    simp [CombatManager.initiativeLE, hinit]

/-- The turn-scan body only hands out live combatants when it does not wrap:
    every (newRound = false, some c) outcome has c live. -/
theorem nextTurnGo_mid_round_live (fuel : Nat) :
    ∀ (s s' : CombatState) (o : CombatManager.TurnOutcome) (c : Combatant),
      CombatManager.nextTurnGo fuel s = (s', o) → o.newRound = false →
      o.currentCombatant = some c → c.isDefeated = false := by
  induction fuel with
  | zero =>
    intro s s' o c h hnr hc
    simp only [CombatManager.nextTurnGo] at h
    split at h
    · injection h with h1 h2
      subst h2
      simp at hnr
    · split at h
      · split at h
        · injection h with h1 h2
          subst h2
          simp_all
        · injection h with h1 h2
          subst h2
          simp at hc
      · injection h with h1 h2
        subst h2
        simp at hc
  | succ n ih =>
    intro s s' o c h hnr hc
    simp only [CombatManager.nextTurnGo] at h
    split at h
    · injection h with h1 h2
      subst h2
      simp at hnr
    · split at h
      · split at h
        · injection h with h1 h2
          subst h2
          simp_all
        · exact ih _ _ _ _ h hnr hc
      · exact ih _ _ _ _ h hnr hc

/-- C1 counterexample: in stateC1 a live combatant exists, yet nextTurn wraps
    to slot 0 and reports the defeated combatant there as current. -/
theorem nextTurn_returns_defeated_cex :
    stateC1.combatants.any (fun c => !c.isDefeated) = true
    ∧ (CombatManager.nextTurn stateC1).2.newRound = true
    ∧ ((CombatManager.nextTurn stateC1).2.currentCombatant.map (fun c => c.isDefeated))
        = some true := by
  decide

/-- C1 (amended): nextTurn never returns a defeated combatant as current
    within a round; only the newRound = true wrap outcome may point at a
    defeated combatant (slot 0 is reported regardless of defeated status). -/
theorem nextTurn_mid_round_live (s s' : CombatState) (o : CombatManager.TurnOutcome)
    (c : Combatant) (h : CombatManager.nextTurn s = (s', o))
    (hnr : o.newRound = false) (hc : o.currentCombatant = some c) :
    c.isDefeated = false := by
  unfold CombatManager.nextTurn at h
  split at h
  · injection h with h1 h2
    subst h2
    simp at hc
  · exact nextTurnGo_mid_round_live _ _ _ _ _ h hnr hc

/-- C1 witness: stateC1w's nextTurn stays in the round and hands the turn to
    the live combatant at slot 1. -/
theorem nextTurn_mid_round_live_witness :
    (CombatManager.nextTurn stateC1w).2.currentCombatant = some combatantC1w
    ∧ combatantC1w.isDefeated = false :=
  ⟨by decide,
   nextTurn_mid_round_live stateC1w (CombatManager.nextTurn stateC1w).1
     (CombatManager.nextTurn stateC1w).2 combatantC1w rfl (by decide) (by decide)⟩

/-- The turn-scan body bumps the round by one exactly on the wrap-to-0
    outcome and leaves it alone otherwise. -/
theorem nextTurnGo_round (fuel : Nat) :
    ∀ (s : CombatState),
      ((CombatManager.nextTurnGo fuel s).2.newRound = true
        ∧ (CombatManager.nextTurnGo fuel s).1.round = s.round + 1
        ∧ (CombatManager.nextTurnGo fuel s).1.turnIndex = 0)
      ∨ ((CombatManager.nextTurnGo fuel s).2.newRound = false
        ∧ (CombatManager.nextTurnGo fuel s).1.round = s.round
        ∧ (CombatManager.nextTurnGo fuel s).1.turnIndex ≠ 0) := by
  induction fuel with
  | zero =>
    intro s
    simp only [CombatManager.nextTurnGo]
    split
    · left
      simp_all [CombatManager.wrapRound, CombatManager.addToLog, CombatManager.advanceIndex]
    · split
      · split
        · right
          simp_all [CombatManager.advanceIndex]
        · right
          simp_all [CombatManager.advanceIndex]
      · right
        simp_all [CombatManager.advanceIndex]
  | succ n ih =>
    intro s
    simp only [CombatManager.nextTurnGo]
    split
    · left
      simp_all [CombatManager.wrapRound, CombatManager.addToLog, CombatManager.advanceIndex]
    · split
      · split
        · right
          simp_all [CombatManager.advanceIndex]
        · exact ih _
      · exact ih _

/-- C8: on an active state with a nonempty roster, one nextTurn call bumps
    the round by exactly one when (and only when) the turn index wraps to 0,
    which is also exactly the newRound = true outcome. -/
theorem nextTurn_round_spec (s : CombatState) (hact : s.isActive = true)
    (hne : s.combatants ≠ []) :
    ((CombatManager.nextTurn s).2.newRound = true →
      (CombatManager.nextTurn s).1.round = s.round + 1
      ∧ (CombatManager.nextTurn s).1.turnIndex = 0)
    ∧ ((CombatManager.nextTurn s).2.newRound = false →
      (CombatManager.nextTurn s).1.round = s.round
      ∧ (CombatManager.nextTurn s).1.turnIndex ≠ 0)
    ∧ ((CombatManager.nextTurn s).1.turnIndex = 0 →
      (CombatManager.nextTurn s).2.newRound = true) := by
  have hgo := nextTurnGo_round (s.combatants.length - 1) s
  unfold CombatManager.nextTurn
  rw [hact]
  simp only [Bool.not_true, Bool.false_eq_true, if_false]
  rcases hgo with ⟨h1, h2, h3⟩ | ⟨h1, h2, h3⟩
  · refine ⟨fun _ => ⟨h2, h3⟩, fun hf => ?_, fun _ => h1⟩
    rw [h1] at hf
    cases hf
  · refine ⟨fun ht => ?_, fun _ => ⟨h2, h3⟩, fun h0 => absurd h0 h3⟩
    rw [h1] at ht
    cases ht

/-- C8 witness: the theorem at stateC8 (active, two live combatants). -/
theorem nextTurn_round_spec_witness :
    ((CombatManager.nextTurn stateC8).2.newRound = true →
      (CombatManager.nextTurn stateC8).1.round = stateC8.round + 1
      ∧ (CombatManager.nextTurn stateC8).1.turnIndex = 0)
    ∧ ((CombatManager.nextTurn stateC8).2.newRound = false →
      (CombatManager.nextTurn stateC8).1.round = stateC8.round
      ∧ (CombatManager.nextTurn stateC8).1.turnIndex ≠ 0)
    ∧ ((CombatManager.nextTurn stateC8).1.turnIndex = 0 →
      (CombatManager.nextTurn stateC8).2.newRound = true) :=
  nextTurn_round_spec stateC8 (by decide) (by decide)

/-- C2 counterexample: on an inactive state, processAttack still lands a hit —
    the target's HP drops from 6 to 2 and the log grows, so the state is
    mutated after active = false. -/
theorem processAttack_inactive_mutates_cex :
    stateC2.isActive = false
    ∧ (CombatManager.processAttack stateC2 "a" "t" 5
        { dice := 1, sides := 6, bonus := 0 } 15 [4]).1 ≠ stateC2
    ∧ ((CombatManager.processAttack stateC2 "a" "t" 5
        { dice := 1, sides := 6, bonus := 0 } 15 [4]).1.combatants.map
          (fun c => c.hp.current)) = [10, 2]
    ∧ (CombatManager.processAttack stateC2 "a" "t" 5
        { dice := 1, sides := 6, bonus := 0 } 15 [4]).1.combatLog ≠ stateC2.combatLog := by
  decide

/-- C2 (amended): after active = false, nextTurn performs no mutation and
    returns the null outcome; processAttack, however, never consults the
    active flag — it is guaranteed not to mutate only when its own guards
    fire, e.g. when the target is already defeated. -/
theorem inactive_frame_spec (s : CombatState) (hina : s.isActive = false) :
    CombatManager.nextTurn s = (s, { newRound := false, currentCombatant := none })
    ∧ (∀ (aId tId : String) (b : Int) (spec : CombatManager.DamageRollSpec)
        (d20 : Int) (dr : List Int) (t : Combatant),
        CombatManager.getCombatant s tId = some t → t.isDefeated = true →
        CombatManager.processAttack s aId tId b spec d20 dr
          = (s, { success := false, damage := none })) := by
  constructor
  · unfold CombatManager.nextTurn
    rw [hina]
    simp
  · intro aId tId b spec d20 dr t ht hdef
    unfold CombatManager.processAttack
    rw [ht]
    cases hact : CombatManager.getCombatant s aId with
    | none => simp
    | some a => simp [hdef]

/-- C2 witness: the amended claim at stateC2w. -/
theorem inactive_frame_spec_witness :
    CombatManager.nextTurn stateC2w
      = (stateC2w, { newRound := false, currentCombatant := none })
    ∧ CombatManager.processAttack stateC2w "x" "t" 1
        { dice := 1, sides := 6, bonus := 0 } 20 [3]
      = (stateC2w, { success := false, damage := none }) :=
  ⟨(inactive_frame_spec stateC2w (by decide)).1,
   (inactive_frame_spec stateC2w (by decide)).2 "x" "t" 1
     { dice := 1, sides := 6, bonus := 0 } 20 [3] combatantC2w (by decide) (by decide)⟩

/-- C3 counterexample: with every player defeated, checkCombatEnd is not
    side-effect-free — it flips isActive to false and appends to the log. -/
theorem checkCombatEnd_mutates_cex :
    stateC3.isActive = true
    ∧ (CombatManager.checkCombatEnd stateC3).1 ≠ stateC3
    ∧ (CombatManager.checkCombatEnd stateC3).1.isActive = false
    ∧ (CombatManager.checkCombatEnd stateC3).1.combatLog ≠ stateC3.combatLog := by
  decide

/-- C3 (amended): getCurrentCombatant and getActiveCombatants touch no state;
    checkCombatEnd leaves the state unchanged only while both sides still have
    a live combatant (on an ended outcome it mutates isActive and the log). -/
theorem query_frame_spec (s : CombatState) :
    (CombatManager.getCurrentCombatantM s).1 = s
    ∧ (CombatManager.getActiveCombatantsM s).1 = s
    ∧ ((∃ c ∈ s.combatants, c.isPlayer = true ∧ c.isDefeated = false) →
       (∃ c ∈ s.combatants, c.isPlayer = false ∧ c.isDefeated = false) →
       CombatManager.checkCombatEnd s
         = (s, { ended := false, winners := none, reason := none })) := by
  refine ⟨rfl, rfl, ?_⟩
  intro h1 h2
  obtain ⟨p, hpmem, hpp, hpd⟩ := h1
  obtain ⟨e, hemem, hep, hed⟩ := h2
  have hpl : p ∈ s.combatants.filter (fun c => c.isPlayer && !c.isDefeated) :=
    List.mem_filter.mpr ⟨hpmem, by simp [hpp, hpd]⟩
  have hel : e ∈ s.combatants.filter (fun c => !c.isPlayer && !c.isDefeated) :=
    List.mem_filter.mpr ⟨hemem, by simp [hep, hed]⟩
  have hl1 : (s.combatants.filter (fun c => c.isPlayer && !c.isDefeated)).length ≠ 0 := by
    have := List.length_pos_of_mem hpl
    omega
  have hl2 : (s.combatants.filter (fun c => !c.isPlayer && !c.isDefeated)).length ≠ 0 := by
    have := List.length_pos_of_mem hel
    omega
  simp only [CombatManager.checkCombatEnd]
  split_ifs with hc1
  · exact absurd hc1 hl1
  · rfl

/-- C3 witness: the amended claim at stateC3w (both sides alive). -/
theorem query_frame_spec_witness :
    (CombatManager.getCurrentCombatantM stateC3w).1 = stateC3w
    ∧ (CombatManager.getActiveCombatantsM stateC3w).1 = stateC3w
    ∧ CombatManager.checkCombatEnd stateC3w
        = (stateC3w, { ended := false, winners := none, reason := none }) :=
  ⟨(query_frame_spec stateC3w).1, (query_frame_spec stateC3w).2.1,
   (query_frame_spec stateC3w).2.2 (by decide) (by decide)⟩

/-- updateFirst leaves every slot intact whose occupant differs from whatever
    find? locates for the id. -/
theorem updateFirst_getElem (tid : String) (f : Combatant → Combatant) :
    ∀ (l : List Combatant) (i : Nat) (c : Combatant), l[i]? = some c →
      (∀ t, l.find? (fun x => x.id == tid) = some t → t ≠ c) →
      (CombatManager.updateFirst l tid f)[i]? = some c := by
  intro l
  induction l with
  | nil =>
    intro i c h _
    simp at h
  | cons d ds ih =>
    intro i c h hne
    by_cases hd : (d.id == tid) = true
    · have hfind : (d :: ds).find? (fun x => x.id == tid) = some d :=
        List.find?_cons_of_pos _ hd
      cases i with
      | zero =>
        have : d = c := by simpa using h
        exact absurd this (hne d hfind)
      | succ i =>
        simp only [CombatManager.updateFirst, hd, if_true, List.getElem?_cons_succ]
        simpa using h
    · have hd' : (d.id == tid) = false := by simpa using hd
      have hfind : (d :: ds).find? (fun x => x.id == tid)
          = ds.find? (fun x => x.id == tid) :=
        List.find?_cons_of_neg _ (by simp [hd'])
      cases i with
      | zero =>
        simp only [CombatManager.updateFirst, hd', Bool.false_eq_true, if_false,
          List.getElem?_cons_zero]
        simpa using h
      | succ i =>
        simp only [CombatManager.updateFirst, hd', Bool.false_eq_true, if_false,
          List.getElem?_cons_succ]
        refine ih i c (by simpa using h) (fun t ht => hne t ?_)
        rw [hfind]
        exact ht

/-- Every entry of updateFirst is either an original entry or the image of an
    original entry under f. -/
theorem mem_updateFirst (tid : String) (f : Combatant → Combatant) :
    ∀ (l : List Combatant), ∀ c' ∈ CombatManager.updateFirst l tid f,
      c' ∈ l ∨ ∃ t, t ∈ l ∧ c' = f t := by
  intro l
  induction l with
  | nil =>
    intro c' h
    simp [CombatManager.updateFirst] at h
  | cons d ds ih =>
    intro c' h
    by_cases hd : (d.id == tid) = true
    · simp only [CombatManager.updateFirst, hd, if_true, List.mem_cons] at h
      rcases h with h | h
      · exact Or.inr ⟨d, List.mem_cons_self d ds, h⟩
      · exact Or.inl (List.mem_cons_of_mem d h)
    · have hd' : (d.id == tid) = false := by simpa using hd
      simp only [CombatManager.updateFirst, hd', Bool.false_eq_true, if_false,
        List.mem_cons] at h
      rcases h with h | h
      · exact Or.inl (h ▸ List.mem_cons_self d ds)
      · rcases ih c' h with h' | ⟨t, ht, hft⟩
        · exact Or.inl (List.mem_cons_of_mem d h')
        · exact Or.inr ⟨t, List.mem_cons_of_mem d ht, hft⟩

/-- The turn scan never touches the roster or the active flag. -/
theorem nextTurnGo_combatants (fuel : Nat) :
    ∀ s : CombatState,
      (CombatManager.nextTurnGo fuel s).1.combatants = s.combatants
      ∧ (CombatManager.nextTurnGo fuel s).1.isActive = s.isActive := by
  induction fuel with
  | zero =>
    intro s
    simp only [CombatManager.nextTurnGo]
    split
    · simp [CombatManager.wrapRound, CombatManager.addToLog, CombatManager.advanceIndex]
    · split
      · split
        · simp [CombatManager.advanceIndex]
        · simp [CombatManager.advanceIndex]
      · simp [CombatManager.advanceIndex]
  | succ n ih =>
    intro s
    simp only [CombatManager.nextTurnGo]
    split
    · simp [CombatManager.wrapRound, CombatManager.addToLog, CombatManager.advanceIndex]
    · split
      · split
        · simp [CombatManager.advanceIndex]
        · exact ih _
      · exact ih _

/-- nextTurn never touches the roster. -/
theorem nextTurn_combatants (s : CombatState) :
    (CombatManager.nextTurn s).1.combatants = s.combatants := by
  unfold CombatManager.nextTurn
  split
  · rfl
  · exact (nextTurnGo_combatants _ s).1

/-- checkCombatEnd never touches the roster. -/
theorem checkCombatEnd_combatants (s : CombatState) :
    (CombatManager.checkCombatEnd s).1.combatants = s.combatants := by
  simp only [CombatManager.checkCombatEnd]
  split_ifs <;> simp [CombatManager.addToLog]

/-- processAttack either leaves the roster alone or rewrites the first
    combatant with the target id — a live target — to its damaged version. -/
theorem processAttack_combatants (s : CombatState) (aId tId : String) (b : Int)
    (spec : CombatManager.DamageRollSpec) (d20 : Int) (dr : List Int) :
    (CombatManager.processAttack s aId tId b spec d20 dr).1.combatants = s.combatants
    ∨ ∃ t damage, 0 ≤ damage
        ∧ CombatManager.getCombatant s tId = some t
        ∧ t.isDefeated = false
        ∧ (CombatManager.processAttack s aId tId b spec d20 dr).1.combatants
            = CombatManager.updateFirst s.combatants tId
                (fun _ => CombatManager.damagedTarget t damage) := by
  unfold CombatManager.processAttack
  cases ha : CombatManager.getCombatant s aId with
  | none => left; rfl
  | some a =>
    cases ht : CombatManager.getCombatant s tId with
    | none => left; rfl
    | some t =>
      by_cases htd : t.isDefeated = true
      · left
        simp [htd]
      · simp only [Bool.not_eq_true] at htd
        simp only [htd, Bool.false_eq_true, if_false]
        split
        · right
          exact ⟨t, RulesEngine.resolveDamage spec.dice spec.sides spec.bonus false dr [],
            le_max_left 0 _, rfl, htd, by split <;> simp [CombatManager.addToLog]⟩
        · left
          simp [CombatManager.addToLog]

/-- The manager applyDamage either leaves the roster alone or rewrites the
    first combatant with the target id — a live target — to its damaged
    version. -/
theorem applyDamage_combatants (s : CombatState) (tId : String) (damage : Int)
    (src : String) :
    (CombatManager.applyDamage s tId damage src).combatants = s.combatants
    ∨ ∃ t, CombatManager.getCombatant s tId = some t
        ∧ t.isDefeated = false
        ∧ (CombatManager.applyDamage s tId damage src).combatants
            = CombatManager.updateFirst s.combatants tId
                (fun _ => CombatManager.damagedTarget t damage) := by
  unfold CombatManager.applyDamage
  cases ht : CombatManager.getCombatant s tId with
  | none => left; rfl
  | some t =>
    by_cases htd : t.isDefeated = true
    · left
      simp [htd]
    · simp only [Bool.not_eq_true] at htd
      right
      refine ⟨t, rfl, htd, ?_⟩
      simp only [htd, Bool.false_eq_true, if_false]
      split <;> simp [CombatManager.addToLog]

/-- applyHealing either leaves the roster alone or rewrites the first
    combatant with the target id — a live target — to its healed version. -/
theorem applyHealing_combatants (s : CombatState) (tId : String) (healing : Int)
    (src : String) :
    (CombatManager.applyHealing s tId healing src).combatants = s.combatants
    ∨ ∃ t, CombatManager.getCombatant s tId = some t
        ∧ t.isDefeated = false
        ∧ (CombatManager.applyHealing s tId healing src).combatants
            = CombatManager.updateFirst s.combatants tId
                (fun _ => CombatManager.healedTarget t healing) := by
  unfold CombatManager.applyHealing
  cases ht : CombatManager.getCombatant s tId with
  | none => left; rfl
  | some t =>
    by_cases htd : t.isDefeated = true
    · left
      simp [htd]
    · simp only [Bool.not_eq_true] at htd
      right
      refine ⟨t, rfl, htd, ?_⟩
      simp [htd, CombatManager.addToLog]

/-- Combatants with opposite defeated flags differ. -/
theorem ne_of_defeated_flags {t c : Combatant} (htl : t.isDefeated = false)
    (hdef : c.isDefeated = true) : t ≠ c := by
  intro h
  rw [h, hdef] at htl
  cases htl

/-- C9: a defeated combatant is frozen — no manager operation changes its
    record (hp.current and isDefeated included), and processAttack /
    applyDamage / applyHealing aimed at it return their failure results with
    the state untouched; in particular the flag is never reset to false. -/
theorem defeated_frozen (s : CombatState) (i : Nat) (c : Combatant)
    (hc : s.combatants[i]? = some c) (hdef : c.isDefeated = true) :
    (∀ (aId tId : String) (b : Int) (spec : CombatManager.DamageRollSpec)
        (d20 : Int) (dr : List Int),
        (CombatManager.processAttack s aId tId b spec d20 dr).1.combatants[i]? = some c)
    ∧ (∀ (tId : String) (d : Int) (src : String),
        (CombatManager.applyDamage s tId d src).combatants[i]? = some c)
    ∧ (∀ (tId : String) (h : Int) (src : String),
        (CombatManager.applyHealing s tId h src).combatants[i]? = some c)
    ∧ (CombatManager.nextTurn s).1.combatants[i]? = some c
    ∧ (CombatManager.checkCombatEnd s).1.combatants[i]? = some c
    ∧ (CombatManager.endCombat s).combatants[i]? = some c
    ∧ (∀ (aId tId : String) (b : Int) (spec : CombatManager.DamageRollSpec)
        (d20 : Int) (dr : List Int), CombatManager.getCombatant s tId = some c →
        CombatManager.processAttack s aId tId b spec d20 dr
          = (s, { success := false, damage := none }))
    ∧ (∀ (tId : String) (d : Int) (src : String),
        CombatManager.getCombatant s tId = some c →
        CombatManager.applyDamage s tId d src = s)
    ∧ (∀ (tId : String) (h : Int) (src : String),
        CombatManager.getCombatant s tId = some c →
        CombatManager.applyHealing s tId h src = s) := by
  refine ⟨?_, ?_, ?_, ?_, ?_, ?_, ?_, ?_, ?_⟩
  · intro aId tId b spec d20 dr
    rcases processAttack_combatants s aId tId b spec d20 dr with heq | ⟨t, dmg, _, ht, htl, heq⟩
    · rw [heq]
      exact hc
    · rw [heq]
      refine updateFirst_getElem tId _ s.combatants i c hc ?_
      intro t' ht'
      unfold CombatManager.getCombatant at ht
      rw [ht'] at ht
      injection ht with htt
      exact htt ▸ ne_of_defeated_flags htl hdef
  · intro tId d src
    rcases applyDamage_combatants s tId d src with heq | ⟨t, ht, htl, heq⟩
    · rw [heq]
      exact hc
    · rw [heq]
      refine updateFirst_getElem tId _ s.combatants i c hc ?_
      intro t' ht'
      unfold CombatManager.getCombatant at ht
      rw [ht'] at ht
      injection ht with htt
      exact htt ▸ ne_of_defeated_flags htl hdef
  · intro tId h src
    rcases applyHealing_combatants s tId h src with heq | ⟨t, ht, htl, heq⟩
    · rw [heq]
      exact hc
    · rw [heq]
      refine updateFirst_getElem tId _ s.combatants i c hc ?_
      intro t' ht'
      unfold CombatManager.getCombatant at ht
      rw [ht'] at ht
      injection ht with htt
      exact htt ▸ ne_of_defeated_flags htl hdef
  · rw [nextTurn_combatants]
    exact hc
  · rw [checkCombatEnd_combatants]
    exact hc
  · exact hc
  · intro aId tId b spec d20 dr hct
    unfold CombatManager.processAttack
    rw [hct]
    cases hact : CombatManager.getCombatant s aId with
    | none => simp
    | some a => simp [hdef]
  · intro tId d src hct
    unfold CombatManager.applyDamage
    rw [hct]
    simp [hdef]
  · intro tId h src hct
    unfold CombatManager.applyHealing
    rw [hct]
    simp [hdef]

/-- C9 witness: the frozen-defeat theorem at stateC9's defeated combatant. -/
theorem defeated_frozen_witness :
    (CombatManager.processAttack stateC9 "l" "d" 4
        { dice := 1, sides := 6, bonus := 1 } 18 [3]).1.combatants[0]? = some combatantC9
    ∧ (CombatManager.applyDamage stateC9 "d" 5 "trap").combatants[0]? = some combatantC9
    ∧ (CombatManager.applyHealing stateC9 "d" 5 "potion").combatants[0]? = some combatantC9
    ∧ (CombatManager.nextTurn stateC9).1.combatants[0]? = some combatantC9
    ∧ (CombatManager.checkCombatEnd stateC9).1.combatants[0]? = some combatantC9
    ∧ (CombatManager.endCombat stateC9).combatants[0]? = some combatantC9
    ∧ CombatManager.processAttack stateC9 "l" "d" 4
        { dice := 1, sides := 6, bonus := 1 } 18 [3]
        = (stateC9, { success := false, damage := none })
    ∧ CombatManager.applyDamage stateC9 "d" 5 "trap" = stateC9
    ∧ CombatManager.applyHealing stateC9 "d" 5 "potion" = stateC9 := by
  have h := defeated_frozen stateC9 0 combatantC9 (by decide) (by decide)
  exact ⟨h.1 "l" "d" 4 { dice := 1, sides := 6, bonus := 1 } 18 [3],
    h.2.1 "d" 5 "trap", h.2.2.1 "d" 5 "potion", h.2.2.2.1, h.2.2.2.2.1,
    h.2.2.2.2.2.1,
    h.2.2.2.2.2.2.1 "l" "d" 4 { dice := 1, sides := 6, bonus := 1 } 18 [3] (by decide),
    h.2.2.2.2.2.2.2.1 "d" 5 "trap" (by decide),
    h.2.2.2.2.2.2.2.2 "d" 5 "potion" (by decide)⟩

/-- C10 counterexample: applyHealing accepts a negative healing amount and
    drives hp.current to -2, below the claimed lower bound 0 — the manager
    only clamps at hp.max on the healing path. -/
theorem applyHealing_negative_cex :
    hpWithinBounds stateC10
    ∧ ((CombatManager.applyHealing stateC10 "t" (-5) "curse").combatants.map
        (fun c => c.hp.current)) = [-2]
    ∧ ¬ hpWithinBounds (CombatManager.applyHealing stateC10 "t" (-5) "curse") := by
  decide

/-- C10 (amended): with non-negative damage and healing amounts, every
    manager operation preserves 0 <= hp.current <= hp.max for every
    combatant (processAttack needs no hypothesis: its damage comes from
    resolveDamage, which floors at 0). -/
theorem hp_bounds_preserved (s : CombatState) (hs : hpWithinBounds s) :
    (∀ roster : List Combatant,
        (∀ c ∈ roster, 0 ≤ c.hp.current ∧ c.hp.current ≤ c.hp.max) →
        hpWithinBounds (CombatManager.startCombat roster))
    ∧ (∀ (aId tId : String) (b : Int) (spec : CombatManager.DamageRollSpec)
        (d20 : Int) (dr : List Int),
        hpWithinBounds (CombatManager.processAttack s aId tId b spec d20 dr).1)
    ∧ (∀ (tId : String) (d : Int) (src : String), 0 ≤ d →
        hpWithinBounds (CombatManager.applyDamage s tId d src))
    ∧ (∀ (tId : String) (h : Int) (src : String), 0 ≤ h →
        hpWithinBounds (CombatManager.applyHealing s tId h src))
    ∧ hpWithinBounds (CombatManager.nextTurn s).1
    ∧ hpWithinBounds (CombatManager.checkCombatEnd s).1
    ∧ hpWithinBounds (CombatManager.endCombat s) := by
  refine ⟨?_, ?_, ?_, ?_, ?_, ?_, ?_⟩
  · intro roster hr c hcmem
    have : c ∈ roster :=
      (List.mergeSort_perm roster CombatManager.initiativeLE).mem_iff.mp hcmem
    exact hr c this
  · intro aId tId b spec d20 dr c hcmem
    rcases processAttack_combatants s aId tId b spec d20 dr with heq | ⟨t, dmg, hd0, ht, _, heq⟩
    · rw [heq] at hcmem
      exact hs c hcmem
    · rw [heq] at hcmem
      rcases mem_updateFirst tId _ s.combatants c hcmem with hin | ⟨t', _, hceq⟩
      · exact hs c hin
      · unfold CombatManager.getCombatant at ht
        have hmem := List.mem_of_find?_eq_some ht
        have htb := hs t hmem
        rw [hceq]
        simp only [CombatManager.damagedTarget]
        constructor
        · exact le_max_left 0 _
        · omega
  · intro tId d src hd c hcmem
    rcases applyDamage_combatants s tId d src with heq | ⟨t, ht, _, heq⟩
    · rw [heq] at hcmem
      exact hs c hcmem
    · rw [heq] at hcmem
      rcases mem_updateFirst tId _ s.combatants c hcmem with hin | ⟨t', _, hceq⟩
      · exact hs c hin
      · unfold CombatManager.getCombatant at ht
        have htb := hs t (List.mem_of_find?_eq_some ht)
        rw [hceq]
        simp only [CombatManager.damagedTarget]
        constructor
        · exact le_max_left 0 _
        · omega
  · intro tId h src hh c hcmem
    rcases applyHealing_combatants s tId h src with heq | ⟨t, ht, _, heq⟩
    · rw [heq] at hcmem
      exact hs c hcmem
    · rw [heq] at hcmem
      rcases mem_updateFirst tId _ s.combatants c hcmem with hin | ⟨t', _, hceq⟩
      · exact hs c hin
      · unfold CombatManager.getCombatant at ht
        have htb := hs t (List.mem_of_find?_eq_some ht)
        rw [hceq]
        simp only [CombatManager.healedTarget]
        constructor
        · omega
        · omega
  · intro c hcmem
    rw [nextTurn_combatants] at hcmem
    exact hs c hcmem
  · intro c hcmem
    rw [checkCombatEnd_combatants] at hcmem
    exact hs c hcmem
  · intro c hcmem
    exact hs c hcmem

/-- C10 witness: the amended claim at stateC10 with concrete arguments. -/
theorem hp_bounds_preserved_witness :
    hpWithinBounds (CombatManager.startCombat stateC10.combatants)
    ∧ hpWithinBounds (CombatManager.processAttack stateC10 "t" "t" 3
        { dice := 1, sides := 6, bonus := 0 } 20 [2]).1
    ∧ hpWithinBounds (CombatManager.applyDamage stateC10 "t" 4 "trap")
    ∧ hpWithinBounds (CombatManager.applyHealing stateC10 "t" 4 "potion")
    ∧ hpWithinBounds (CombatManager.nextTurn stateC10).1
    ∧ hpWithinBounds (CombatManager.checkCombatEnd stateC10).1
    ∧ hpWithinBounds (CombatManager.endCombat stateC10) := by
  have h := hp_bounds_preserved stateC10 (by decide)
  exact ⟨h.1 stateC10.combatants (by decide),
    h.2.1 "t" "t" 3 { dice := 1, sides := 6, bonus := 0 } 20 [2],
    h.2.2.1 "t" 4 "trap" (by decide), h.2.2.2.1 "t" 4 "potion" (by decide),
    h.2.2.2.2.1, h.2.2.2.2.2.1, h.2.2.2.2.2.2⟩

/-- C4 witness: startCombat on rosterC4; the equal-initiative pair keeps its
    input order in the sorted output. -/
theorem startCombat_spec_witness :
    (CombatManager.startCombat rosterC4).round = 1
    ∧ (CombatManager.startCombat rosterC4).turnIndex = 0
    ∧ (CombatManager.startCombat rosterC4).isActive = true
    ∧ (CombatManager.startCombat rosterC4).combatants.Perm rosterC4
    ∧ List.Pairwise (fun a b => b.initiative ≤ a.initiative)
        (CombatManager.startCombat rosterC4).combatants
    ∧ List.Sublist [combatantC4a, combatantC4b]
        (CombatManager.startCombat rosterC4).combatants
    ∧ (CombatManager.startCombat rosterC4).combatLog =
        [CombatManager.combatBeginsEntry,
         CombatManager.initiativeOrderEntry (CombatManager.startCombat rosterC4).combatants] := by
  have h := startCombat_spec rosterC4
  exact ⟨h.1, h.2.1, h.2.2.1, h.2.2.2.1, h.2.2.2.2.1,
    h.2.2.2.2.2.1 combatantC4a combatantC4b rfl (by decide), h.2.2.2.2.2.2⟩

/-- The seedless reduce of the enemy policy returns the first minimum of the
    HP ratio in a left-to-right scan: the fold result splits the list into a
    strictly-worse prefix, itself, and a no-better remainder. -/
theorem foldl_weakerTarget_argmin (rest : List Combatant) :
    ∀ first : Combatant,
      ∃ pre post,
        first :: rest = pre ++ (rest.foldl EnemyAI.weakerTarget first) :: post
        ∧ (∀ c ∈ pre,
            EnemyAI.hpPercent (rest.foldl EnemyAI.weakerTarget first) < EnemyAI.hpPercent c)
        ∧ (∀ c ∈ first :: rest,
            EnemyAI.hpPercent (rest.foldl EnemyAI.weakerTarget first) ≤ EnemyAI.hpPercent c) := by
  induction rest with
  | nil =>
    intro first
    refine ⟨[], [], rfl, by simp, ?_⟩
    intro c hc
    rw [List.mem_singleton] at hc
    rw [hc]
    exact le_rfl
  | cons d ds ih =>
    intro first
    by_cases hlt : EnemyAI.hpPercent d < EnemyAI.hpPercent first
    · have hw : EnemyAI.weakerTarget first d = d := by
        simp [EnemyAI.weakerTarget, hlt]
      simp only [List.foldl_cons, hw]
      obtain ⟨pre, post, hdecomp, hpre, hmin⟩ := ih d
      refine ⟨first :: pre, post, ?_, ?_, ?_⟩
      · rw [List.cons_append, ← hdecomp]
      · intro c hc
        rcases List.mem_cons.mp hc with rfl | hc'
        · exact lt_of_le_of_lt (hmin d (List.mem_cons_self d ds)) hlt
        · exact hpre c hc'
      · intro c hc
        rcases List.mem_cons.mp hc with rfl | hc'
        · exact (lt_of_le_of_lt (hmin d (List.mem_cons_self d ds)) hlt).le
        · exact hmin c hc'
    · have hw : EnemyAI.weakerTarget first d = first := by
        simp [EnemyAI.weakerTarget, hlt]
      have hdf : EnemyAI.hpPercent first ≤ EnemyAI.hpPercent d := le_of_not_lt hlt
      simp only [List.foldl_cons, hw]
      obtain ⟨pre, post, hdecomp, hpre, hmin⟩ := ih first
      cases pre with
      | nil =>
        rw [List.nil_append] at hdecomp
        injection hdecomp with hfw hdspost
        refine ⟨[], d :: ds, ?_, by simp, ?_⟩
        · rw [List.nil_append, ← hfw]
        · intro c hc
          rcases List.mem_cons.mp hc with rfl | hc'
          · rw [← hfw]
          · rcases List.mem_cons.mp hc' with rfl | hc''
            · rw [← hfw]
              exact hdf
            · exact hmin c (List.mem_cons_of_mem first hc'')
      | cons p pre' =>
        rw [List.cons_append] at hdecomp
        injection hdecomp with hp hds
        have hwf : EnemyAI.hpPercent (ds.foldl EnemyAI.weakerTarget first)
            < EnemyAI.hpPercent first := by
          have := hpre p (List.mem_cons_self p pre')
          rwa [← hp] at this
        refine ⟨first :: d :: pre', post, ?_, ?_, ?_⟩
        · conv_lhs => rw [hds]
          simp
        · intro c hc
          rcases List.mem_cons.mp hc with rfl | hc'
          · exact hwf
          · rcases List.mem_cons.mp hc' with rfl | hc''
            · exact lt_of_lt_of_le hwf hdf
            · exact hpre c (List.mem_cons_of_mem p hc'')
        · intro c hc
          rcases List.mem_cons.mp hc with rfl | hc'
          · exact hwf.le
          · rcases List.mem_cons.mp hc' with rfl | hc''
            · exact (lt_of_lt_of_le hwf hdf).le
            · exact hmin c (List.mem_cons_of_mem first hc'')

/-- C7: decideAction passes without live players; with live players it
    defends when the enemy sits below a quarter HP and the draw falls under
    0.3, and otherwise attacks the live player with the lowest HP ratio,
    first minimum winning ties in the left-to-right scan. -/
theorem decideAction_spec (enemy : Combatant) (allCombatants : List Combatant)
    (randDraw : ℚ) :
    (allCombatants.filter (fun c => c.isPlayer && !c.isDefeated) = [] →
      EnemyAI.decideAction enemy allCombatants randDraw
        = { action := EnemyAI.AIAction.pass, targetId := none
            reasoning := EnemyAI.noValidTargetsMsg })
    ∧ (∀ (first : Combatant) (rest : List Combatant),
        allCombatants.filter (fun c => c.isPlayer && !c.isDefeated) = first :: rest →
        ((EnemyAI.hpPercent enemy < 1 / 4 ∧ randDraw < 3 / 10) →
          (EnemyAI.decideAction enemy allCombatants randDraw).action
            = EnemyAI.AIAction.defend)
        ∧ (¬(EnemyAI.hpPercent enemy < 1 / 4 ∧ randDraw < 3 / 10) →
          (EnemyAI.decideAction enemy allCombatants randDraw).action
            = EnemyAI.AIAction.attack
          ∧ ∃ w pre post,
              (EnemyAI.decideAction enemy allCombatants randDraw).targetId = some w.id
              ∧ first :: rest = pre ++ w :: post
              ∧ (∀ c ∈ pre, EnemyAI.hpPercent w < EnemyAI.hpPercent c)
              ∧ (∀ c ∈ first :: rest, EnemyAI.hpPercent w ≤ EnemyAI.hpPercent c))) := by
  constructor
  · intro hf
    simp [EnemyAI.decideAction, hf]
  · intro first rest hf
    simp only [EnemyAI.decideAction, hf]
    constructor
    · intro hcond
      rw [if_pos hcond]
    · intro hcond
      rw [if_neg hcond]
      refine ⟨rfl, ?_⟩
      obtain ⟨pre, post, hdec, hpre, hmin⟩ := foldl_weakerTarget_argmin rest first
      exact ⟨rest.foldl EnemyAI.weakerTarget first, pre, post, rfl, hdec, hpre, hmin⟩

/-- C7 witness: against a 50% and a 30% player, the full-HP enemy attacks the
    30% player. -/
theorem decideAction_spec_witness :
    (EnemyAI.decideAction enemyC7 rosterC7 (1 / 2)).action = EnemyAI.AIAction.attack
    ∧ ∃ w pre post,
        (EnemyAI.decideAction enemyC7 rosterC7 (1 / 2)).targetId = some w.id
        ∧ playerC7a :: [playerC7b] = pre ++ w :: post
        ∧ (∀ c ∈ pre, EnemyAI.hpPercent w < EnemyAI.hpPercent c)
        ∧ (∀ c ∈ playerC7a :: [playerC7b], EnemyAI.hpPercent w ≤ EnemyAI.hpPercent c) :=
  ((decideAction_spec enemyC7 rosterC7 (1 / 2)).2 playerC7a [playerC7b]
    (by decide)).2 (by norm_num [EnemyAI.hpPercent, enemyC7])

end DndApp
